import Mathlib

/-!
Shallow embedding of `src/main.py` (Life_Productivity_Wellness_Companion MCP
server).  The SQLite database is modelled as an explicit state record:
the `tasks` table as a list of task rows in insertion order, the
`water_logs` table as an association list from date string to liters, and
the `AUTOINCREMENT` id sequence as a `next_id` counter (SQLite's
`AUTOINCREMENT` never reuses ids and is not reset by `DELETE FROM tasks`).
Timestamps `"YYYY-MM-DD HH:MM:SS"` are modelled as a (day, time-of-day)
pair: ISO-format string comparison coincides with lexicographic comparison
of the pair, and `substr(created_at,1,10)` is the `day` component.
`datetime.now()` / `date.today()` become explicit `now` / `today`
parameters.  Python floats are modelled as exact rationals; Python's
`int(...)` conversion truncates toward zero.
-/

namespace Companion

/-- A calendar timestamp: `day` is the calendar day (date portion) as an
integer day number, `tod` the time of day within it. -/
structure Timestamp where
  day : Int
  tod : Int
  deriving DecidableEq, Repr

/-- Chronological order on timestamps; equals lexicographic (hence ISO string)
order. -/
def ts_le (a b : Timestamp) : Prop :=
  a.day < b.day ∨ (a.day = b.day ∧ a.tod ≤ b.tod)

instance : DecidableRel ts_le := fun a b => by
  unfold ts_le; infer_instance

/-- One row of the `tasks` table. -/
structure Task where
  id : Nat
  title : String
  category : String
  priority : String
  duration_hours : ℚ
  created_at : Timestamp
  due_date : Option String
  completed : Bool
  points : Int
  deriving DecidableEq, Repr

/-- The database state: `tasks` and `water_logs` tables plus the
`AUTOINCREMENT` sequence for task ids. -/
structure State where
  tasks : List Task
  water_logs : List (String × ℚ)
  next_id : Nat
  deriving DecidableEq, Repr

/-- A freshly initialised database (both tables empty, first id 1). -/
def init_state : State := { tasks := [], water_logs := [], next_id := 1 }

/-- Python's `int(q)` on a non-integer number: truncation toward zero. -/
def pyInt (q : ℚ) : Int := if 0 ≤ q then ⌊q⌋ else ⌈q⌉

/-- Python's `str.lower()`: lower-case every character (ASCII-identical to
Python's behaviour on the inputs compared here). -/
def py_lower (s : String) : String := ⟨s.data.map Char.toLower⟩

/-- The score computed at task creation:
`int(duration_hours * 10 + (5 if priority.lower() == "high" else 0))`. -/
def task_points (duration_hours : ℚ) (priority : String) : Int :=
  pyInt (duration_hours * 10 + (if py_lower priority = "high" then 5 else 0))

/-- A single-quote character, for rebuilding the Python f-string messages. -/
def sq : String := String.singleton (Char.ofNat 39)

/-- `add_task`: inserts a row with `completed = 0` and the precomputed
points, returning the confirmation message. -/
def add_task (title : String) (duration_hours : ℚ) (category : String)
    (priority : String) (due_date : Option String) (now : Timestamp)
    (s : State) : String × State :=
  let points := task_points duration_hours priority
  let t : Task :=
    { id := s.next_id, title := title, category := category,
      priority := priority, duration_hours := duration_hours,
      created_at := now, due_date := due_date, completed := false,
      points := points }
  ("Task " ++ sq ++ title ++ sq ++ " added in category " ++ sq ++ category
      ++ sq ++ " with " ++ toString points ++ " points.",
    { s with tasks := s.tasks ++ [t], next_id := s.next_id + 1 })

/-- Order on task rows used by `SELECT * FROM tasks ORDER BY created_at`. -/
def created_le (a b : Task) : Prop := ts_le a.created_at b.created_at

instance : DecidableRel created_le := fun a b => by
  unfold created_le; infer_instance

/-- `list_tasks`: all rows ordered by `created_at`. -/
def list_tasks (s : State) : List Task :=
  List.insertionSort created_le s.tasks

/-- `complete_task`: look the row up by id; report "not found" or
"already completed", otherwise set `completed = 1`. -/
def complete_task (task_id : Nat) (s : State) : String × State :=
  match s.tasks.find? (fun t => t.id == task_id) with
  | none => ("Task not found.", s)
  | some t =>
    if t.completed then ("Task already completed.", s)
    else
      let tasks := s.tasks.map
        (fun u => if u.id = task_id then { u with completed := true } else u)
      ("Task " ++ toString task_id ++ " completed! You earned "
          ++ toString t.points ++ " points 🎉.",
        { s with tasks := tasks })

/-- Strict lexicographic order on character lists: SQLite's BINARY collation
(byte-wise comparison of UTF-8 text, which agrees with lexicographic
comparison of the code points). -/
def chars_lt : List Char → List Char → Prop
  | [], [] => False
  | [], _ :: _ => True
  | _ :: _, [] => False
  | a :: as, b :: bs => a < b ∨ (a = b ∧ chars_lt as bs)

instance chars_lt_dec : (a b : List Char) → Decidable (chars_lt a b)
  | [], [] => isFalse id
  | [], _ :: _ => isTrue trivial
  | _ :: _, [] => isFalse id
  | a :: as, b :: bs =>
    have : Decidable (chars_lt as bs) := chars_lt_dec as bs
    inferInstanceAs (Decidable (a < b ∨ (a = b ∧ chars_lt as bs)))

/-- Strict BINARY-collation order on strings. -/
def str_lt (a b : String) : Prop := chars_lt a.data b.data

instance : DecidableRel str_lt := fun a b => by
  unfold str_lt; infer_instance

/-- Reflexive BINARY-collation order on strings. -/
def str_le (a b : String) : Prop := str_lt a b ∨ a = b

instance : DecidableRel str_le := fun a b => by
  unfold str_le; infer_instance

/-- SQLite `due_date ASC` with NULLs first (BINARY collation on text). -/
def due_le : Option String → Option String → Prop
  | none, _ => True
  | some _, none => False
  | some a, some b => str_le a b

instance : DecidableRel due_le
  | none, _ => isTrue trivial
  | some _, none => isFalse id
  | some a, some b => inferInstanceAs (Decidable (str_le a b))

/-- Row order of `ORDER BY priority DESC, due_date ASC` (BINARY collation:
byte-wise, i.e. lexicographic, string comparison). -/
def pending_le (a b : Task) : Prop :=
  str_lt b.priority a.priority ∨ (a.priority = b.priority ∧ due_le a.due_date b.due_date)

instance : DecidableRel pending_le := fun a b => by
  unfold pending_le; infer_instance

/-- `pending_tasks`: rows with `completed=0`, ordered by
`priority DESC, due_date ASC`. -/
def pending_tasks (s : State) : List Task :=
  List.insertionSort pending_le (s.tasks.filter (fun t => !t.completed))

/-- `total_points`: `SELECT SUM(points) FROM tasks WHERE completed=1`,
with `NULL` (empty sum) read as 0. -/
def total_points (s : State) : Int :=
  ((s.tasks.filter (fun t => t.completed)).map (fun t => t.points)).sum

/-- `SELECT DISTINCT substr(created_at,1,10) FROM tasks WHERE completed=1`:
the distinct creation days of completed tasks. -/
def completed_days (s : State) : List Int :=
  ((s.tasks.filter (fun t => t.completed)).map (fun t => t.created_at.day)).dedup

/-- The distinct completed-task days ordered descending (`ORDER BY day DESC`). -/
def sorted_days (s : State) : List Int :=
  List.insertionSort (fun a b : Int => b ≤ a) (completed_days s)

/-- The `for i, day_str in enumerate(days)` loop of `streak`: count while the
`i`-th day equals `today - timedelta(days=i)`, stop on first mismatch. -/
def streak_walk (today : Int) : List Int → Nat → Nat
  | [], _ => 0
  | d :: rest, i =>
    if d = today - (i : Int) then streak_walk today rest (i + 1) + 1 else 0

/-- `streak`: the current consecutive-day streak. -/
def streak (today : Int) (s : State) : Nat :=
  streak_walk today (sorted_days s) 0

/-- A JSON-like value, to model the shape of returned dictionaries. -/
inductive JVal where
  | int (n : Int)
  | str (s : String)
  | strs (l : List String)
  deriving DecidableEq, Repr

/-- The badge list built by `achievements` from the points total and the
streak: four independent threshold checks, then the placeholder if none hit. -/
def unlocked_badges (total : Int) (streak_days : Nat) : List String :=
  let unlocked : List String := []
  let unlocked :=
    if 50 ≤ total then unlocked ++ ["🥇 Rookie Productivity: Earn 50 points"] else unlocked
  let unlocked :=
    if 100 ≤ total then unlocked ++ ["🥈 Pro Productivity: Earn 100 points"] else unlocked
  let unlocked :=
    if 3 ≤ streak_days then unlocked ++ ["🔥 3-Day Streak"] else unlocked
  let unlocked :=
    if 7 ≤ streak_days then unlocked ++ ["💎 7-Day Streak"] else unlocked
  if unlocked = [] then ["Keep being productive and hydrated!"] else unlocked

/-- `achievements`: returns the dictionary
`{"achievements_unlocked": unlocked}`. -/
def achievements (today : Int) (s : State) : List (String × JVal) :=
  [("achievements_unlocked",
    JVal.strs (unlocked_badges (total_points s) (streak today s)))]

/-- The `streak` tool call as a state transition: it only runs `SELECT`
statements, so the state it leaves behind is the input state. -/
def streak_call (today : Int) (s : State) : Nat × State :=
  (streak today s, s)

/-- The `total_points` tool call as a state transition (read-only). -/
def total_points_call (s : State) : Int × State :=
  (total_points s, s)

/-- The `achievements` tool call as a state transition (read-only). -/
def achievements_call (today : Int) (s : State) : List (String × JVal) × State :=
  (achievements today s, s)

/-- `SELECT water_liters FROM water_logs WHERE log_date=?` (dates are unique,
so the first hit is the row). -/
def water_lookup : List (String × ℚ) → String → Option ℚ
  | [], _ => none
  | p :: rest, d => if p.1 = d then some p.2 else water_lookup rest d

/-- The dictionary returned by `log_water`. -/
structure WaterResult where
  date : String
  total_water : ℚ
  status : String
  deriving DecidableEq, Repr

/-- `log_water`: insert a new row for an unseen date, otherwise add the
amount to the existing row; report the day's new total. -/
def log_water (amount_liters : ℚ) (log_date : String) (s : State) :
    WaterResult × State :=
  let water_logs :=
    match water_lookup s.water_logs log_date with
    | none => s.water_logs ++ [(log_date, amount_liters)]
    | some _ => s.water_logs.map
        (fun p => if p.1 = log_date then (p.1, p.2 + amount_liters) else p)
  let total := (water_lookup water_logs log_date).getD 0
  ({ date := log_date, total_water := total,
      status := if (5 : ℚ) / 2 ≤ total then "💧 Excellent hydration!"
        else "⚠️ Drink more water." },
    { s with water_logs := water_logs })

/-- `clear_tasks`: `DELETE FROM tasks` only — the water log rows and the
`AUTOINCREMENT` sequence survive. -/
def clear_tasks (s : State) : String × State :=
  ("All tasks cleared.", { s with tasks := [] })

/-- Some task in the store is Completed and was created on calendar day `d`. -/
def completed_on (s : State) (d : Int) : Prop :=
  ∃ t ∈ s.tasks, t.completed = true ∧ t.created_at.day = d

instance (s : State) (d : Int) : Decidable (completed_on s d) := by
  unfold completed_on; infer_instance

/-- A sample completed task row, used by the concrete test states below. -/
def fix_task : Task :=
  { id := 1, title := "read", category := "Study", priority := "High",
    duration_hours := 1, created_at := ⟨10, 0⟩, due_date := none,
    completed := true, points := 5 }

/-- Test state for the streak: completed tasks created on days 10, 9 and 7,
a pending one on day 8; with `today = 10` the streak is 2. -/
def c1_state : State :=
  { tasks := [fix_task,
      { fix_task with id := 2, created_at := ⟨9, 3⟩ },
      { fix_task with id := 3, created_at := ⟨7, 0⟩ },
      { fix_task with id := 4, created_at := ⟨8, 0⟩, completed := false }],
    water_logs := [], next_id := 5 }

/-- Test state with a single already-completed task of id 1. -/
def c3_done : State :=
  { tasks := [fix_task], water_logs := [], next_id := 2 }

/-- Test state with a single pending task of id 1. -/
def c3_pend : State :=
  { tasks := [{ fix_task with completed := false }], water_logs := [], next_id := 2 }

/-- Test state with total points 5 (one completed 5-point task). -/
def c5_state : State :=
  { tasks := [{ fix_task with created_at := ⟨3, 0⟩ }], water_logs := [], next_id := 2 }

/-- Test state with one existing water-log row. -/
def c7_state : State :=
  { tasks := [], water_logs := [("2024-01-01", 1)], next_id := 1 }

/-- Test state with a task, a water-log row and id sequence already at 3. -/
def c8_state : State :=
  { tasks := [fix_task], water_logs := [("2024-01-01", 1)], next_id := 3 }

/-- A pending High-priority task created first (day 0). -/
def c10_high : Task :=
  { fix_task with completed := false, created_at := ⟨0, 0⟩ }

/-- A pending Medium-priority task created second (day 1). -/
def c10_med : Task :=
  { fix_task with
    id := 2, priority := "Medium", completed := false, created_at := ⟨1, 0⟩ }

/-- Test state holding the High task before the Medium one. -/
def c10_state : State :=
  { tasks := [c10_high, c10_med], water_logs := [], next_id := 3 }

theorem chars_lt_trans : ∀ (a b c : List Char), chars_lt a b → chars_lt b c → chars_lt a c
  | [], [], _, hab, _ => absurd hab id
  | _ :: _, [], _, hab, _ => absurd hab id
  | [], _ :: _, [], _, hbc => absurd hbc id
  | _ :: _, _ :: _, [], _, hbc => absurd hbc id
  | [], _ :: _, _ :: _, _, _ => trivial
  | a :: as, b :: bs, c :: cs, hab, hbc => by
    rcases hab with h1 | ⟨e1, h1⟩ <;> rcases hbc with h2 | ⟨e2, h2⟩
    · exact Or.inl (lt_trans h1 h2)
    · exact Or.inl (e2 ▸ h1)
    · exact Or.inl (e1 ▸ h2)
    · exact Or.inr ⟨e1.trans e2, chars_lt_trans as bs cs h1 h2⟩

theorem chars_lt_total : ∀ (a b : List Char), chars_lt a b ∨ a = b ∨ chars_lt b a
  | [], [] => Or.inr (Or.inl rfl)
  | [], _ :: _ => Or.inl trivial
  | _ :: _, [] => Or.inr (Or.inr trivial)
  | a :: as, b :: bs =>
    match lt_trichotomy a b with
    | Or.inl h => Or.inl (Or.inl h)
    | Or.inr (Or.inl e) =>
      match chars_lt_total as bs with
      | Or.inl h => Or.inl (Or.inr ⟨e, h⟩)
      | Or.inr (Or.inl e2) => Or.inr (Or.inl (by rw [e, e2]))
      | Or.inr (Or.inr h) => Or.inr (Or.inr (Or.inr ⟨e.symm, h⟩))
    | Or.inr (Or.inr h) => Or.inr (Or.inr (Or.inl h))

theorem str_lt_trans {a b c : String} (h1 : str_lt a b) (h2 : str_lt b c) : str_lt a c :=
  chars_lt_trans _ _ _ h1 h2

theorem str_trichotomy (a b : String) : str_lt a b ∨ a = b ∨ str_lt b a := by
  rcases chars_lt_total a.data b.data with h | h | h
  · exact Or.inl h
  · refine Or.inr (Or.inl ?_)
    cases a
    cases b
    exact congrArg String.mk h
  · exact Or.inr (Or.inr h)

theorem str_le_trans {a b c : String} (h1 : str_le a b) (h2 : str_le b c) : str_le a c := by
  unfold str_le at *
  rcases h1 with h1 | rfl
  · rcases h2 with h2 | rfl
    · exact Or.inl (str_lt_trans h1 h2)
    · exact Or.inl h1
  · exact h2

theorem due_le_total : ∀ (a b : Option String), due_le a b ∨ due_le b a
  | none, _ => Or.inl trivial
  | some _, none => Or.inr trivial
  | some a, some b => by
    rcases str_trichotomy a b with h | h | h
    · exact Or.inl (Or.inl h)
    · exact Or.inl (Or.inr h)
    · exact Or.inr (Or.inl h)

theorem due_le_trans : ∀ (a b c : Option String), due_le a b → due_le b c → due_le a c
  | none, _, _, _, _ => trivial
  | some _, none, _, hab, _ => absurd hab id
  | some _, some _, none, _, hbc => absurd hbc id
  | some _, some _, some _, hab, hbc => str_le_trans hab hbc

theorem pending_le_total (a b : Task) : pending_le a b ∨ pending_le b a := by
  unfold pending_le
  rcases str_trichotomy a.priority b.priority with h | h | h
  · exact Or.inr (Or.inl h)
  · rcases due_le_total a.due_date b.due_date with hd | hd
    · exact Or.inl (Or.inr ⟨h, hd⟩)
    · exact Or.inr (Or.inr ⟨h.symm, hd⟩)
  · exact Or.inl (Or.inl h)

theorem pending_le_trans (a b c : Task) (hab : pending_le a b) (hbc : pending_le b c) :
    pending_le a c := by
  unfold pending_le at *
  rcases hab with h1 | ⟨e1, h1⟩ <;> rcases hbc with h2 | ⟨e2, h2⟩
  · exact Or.inl (str_lt_trans h2 h1)
  · exact Or.inl (e2 ▸ h1)
  · exact Or.inl (by rw [e1]; exact h2)
  · exact Or.inr ⟨e1.trans e2, due_le_trans _ _ _ h1 h2⟩

theorem streak_walk_spec (today : Int) :
    ∀ (l : List Int) (i : Nat), List.Pairwise (fun a b => b < a) l →
      (∀ x ∈ l, x ≤ today - (i : Int)) →
      ((∀ k : Nat, k < streak_walk today l i → (today - ((i : Int) + (k : Int))) ∈ l) ∧
        (today - ((i : Int) + (streak_walk today l i : Int))) ∉ l) := by
  intro l
  induction l with
  | nil =>
    intro i _ _
    exact ⟨fun k hk => absurd hk (Nat.not_lt_zero k), by simp [streak_walk]⟩
  | cons d rest ih =>
    intro i hpw hle
    have hdrest : ∀ x ∈ rest, x < d := (List.pairwise_cons.mp hpw).1
    by_cases hd : d = today - (i : Int)
    · have hrest_le : ∀ x ∈ rest, x ≤ today - ((i + 1 : Nat) : Int) := by
        intro x hx
        have hxd := hdrest x hx
        omega
      obtain ⟨h1, h2⟩ := ih (i + 1) (List.Pairwise.of_cons hpw) hrest_le
      have hw : streak_walk today (d :: rest) i = streak_walk today rest (i + 1) + 1 := by
        simp [streak_walk, hd]
      rw [hw]
      constructor
      · intro k hk
        cases k with
        | zero =>
          have e : today - ((i : Int) + ((0 : Nat) : Int)) = d := by omega
          rw [e]
          exact List.mem_cons_self d rest
        | succ k =>
          have hk2 : k < streak_walk today rest (i + 1) := by omega
          have hm := h1 k hk2
          have e : today - ((i : Int) + ((k + 1 : Nat) : Int))
              = today - (((i + 1 : Nat) : Int) + (k : Int)) := by push_cast; ring
          rw [e]
          exact List.mem_cons_of_mem d hm
      · intro hmem
        rcases List.mem_cons.mp hmem with he | hm
        · omega
        · apply h2
          have e : today - (((i + 1 : Nat) : Int) + (streak_walk today rest (i + 1) : Int))
              = today - ((i : Int) + ((streak_walk today rest (i + 1) + 1 : Nat) : Int)) := by
            push_cast; ring
          rw [e]
          exact hm
    · have hw : streak_walk today (d :: rest) i = 0 := by
        simp [streak_walk, hd]
      rw [hw]
      refine ⟨fun k hk => absurd hk (Nat.not_lt_zero k), ?_⟩
      intro hmem
      rcases List.mem_cons.mp hmem with he | hm
      · exact hd (by omega)
      · have hxd := hdrest _ hm
        have hdle := hle d (List.mem_cons_self d rest)
        omega

theorem sorted_days_pairwise (s : State) :
    List.Pairwise (fun a b : Int => b < a) (sorted_days s) := by
  have hs : List.Sorted (fun a b : Int => b ≤ a) (sorted_days s) :=
    List.sorted_insertionSort _ _
  have hn : (sorted_days s).Nodup :=
    (List.perm_insertionSort _ _).nodup_iff.mpr (List.nodup_dedup _)
  exact (List.Pairwise.and hs hn).imp (fun h => lt_of_le_of_ne h.1 (Ne.symm h.2))

theorem mem_sorted_days {s : State} {x : Int} :
    x ∈ sorted_days s ↔ completed_on s x := by
  simp [sorted_days, completed_days, completed_on, List.mem_filter, and_assoc]

/-- C1: `streak()` returns exactly the value of the spec's algorithm: walking
the distinct completed-task creation days in descending order, the first
`streak` values are exactly today, today-1, ..., and the walk stops at the
first missing day; this characterization (prefix of consecutive days present,
next day absent) determines the result uniquely, so the result is 0 with no
completed task today, a day with several completed tasks counts once, and a
gap breaks the streak regardless of earlier days. -/
theorem streak_spec_characterization (today : Int) (s : State)
    (h : ∀ t ∈ s.tasks, t.completed = true → t.created_at.day ≤ today) :
    (∀ k : Nat, k < streak today s → completed_on s (today - (k : Int))) ∧
      ¬ completed_on s (today - (streak today s : Int)) ∧
      (∀ n : Nat, (∀ k : Nat, k < n → completed_on s (today - (k : Int))) →
        ¬ completed_on s (today - (n : Int)) → n = streak today s) := by
  have hb : ∀ x ∈ sorted_days s, x ≤ today - ((0 : Nat) : Int) := by
    intro x hx
    obtain ⟨t, ht, hc, hday⟩ := mem_sorted_days.mp hx
    have := h t ht hc
    omega
  obtain ⟨h1, h2⟩ := streak_walk_spec today (sorted_days s) 0 (sorted_days_pairwise s) hb
  rw [show streak_walk today (sorted_days s) 0 = streak today s from rfl] at h1 h2
  have hA : ∀ k : Nat, k < streak today s → completed_on s (today - (k : Int)) := by
    intro k hk
    have hm := h1 k hk
    have e : today - (((0 : Nat) : Int) + (k : Int)) = today - (k : Int) := by push_cast; ring
    rw [e] at hm
    exact mem_sorted_days.mp hm
  have hB : ¬ completed_on s (today - (streak today s : Int)) := by
    intro hc
    apply h2
    have e : today - (((0 : Nat) : Int) + (streak today s : Int))
        = today - (streak today s : Int) := by push_cast; ring
    rw [e]
    exact mem_sorted_days.mpr hc
  refine ⟨hA, hB, ?_⟩
  intro n hpre hmiss
  rcases Nat.lt_trichotomy n (streak today s) with hlt | heq | hgt
  · exact absurd (hA n hlt) hmiss
  · exact heq
  · exact absurd (hpre (streak today s) hgt) hB

/-- Concrete instance of C1 at `today = 10` on a store whose completed tasks
were created on days 10, 9 and 7 (streak 2). -/
theorem streak_spec_characterization_witness :
    (∀ k : Nat, k < streak 10 c1_state → completed_on c1_state (10 - (k : Int))) ∧
      ¬ completed_on c1_state (10 - (streak 10 c1_state : Int)) ∧
      (∀ n : Nat, (∀ k : Nat, k < n → completed_on c1_state (10 - (k : Int))) →
        ¬ completed_on c1_state (10 - (n : Int)) → n = streak 10 c1_state) :=
  streak_spec_characterization 10 c1_state (by decide)

/-- C2: for every non-negative duration and any priority string, the points
stored on the task appended by `add_task` are exactly
`floor(duration_hours * 10)` plus 5 when `priority` lower-cases to "high"
(else plus 0); no other input — title, category, due date, clock or prior
state — enters the score. -/
theorem add_task_points_spec (title category priority : String)
    (duration_hours : ℚ) (due_date : Option String) (now : Timestamp)
    (s : State) (h : 0 ≤ duration_hours) :
    ((add_task title duration_hours category priority due_date now s).2.tasks.getLast?).map
        Task.points
      = some (⌊duration_hours * 10⌋ + (if py_lower priority = "high" then 5 else 0)) := by
  unfold add_task
  simp only [List.getLast?_concat, Option.map_some']
  show some (task_points duration_hours priority) = _
  unfold task_points pyInt
  by_cases hp : py_lower priority = "high"
  · rw [if_pos hp, if_pos hp]
    have hnn : (0 : ℚ) ≤ duration_hours * 10 + 5 := by
      have := mul_nonneg h (show (0:ℚ) ≤ 10 by norm_num)
      linarith
    rw [if_pos hnn, show ((5:ℚ)) = (((5:Int)):ℚ) by norm_num, Int.floor_add_int]
  · rw [if_neg hp, if_neg hp]
    have hnn : (0 : ℚ) ≤ duration_hours * 10 + 0 := by
      have := mul_nonneg h (show (0:ℚ) ≤ 10 by norm_num)
      linarith
    rw [if_pos hnn, add_zero, add_zero]

/-- Concrete instance of C2: duration 7/4 at priority "HIGH" gives
`int(17.5 + 5) = 22` points (truncation, case-insensitive priority). -/
theorem add_task_points_spec_witness :
    (0 : ℚ) ≤ 7/4 ∧
      ((add_task "read" (7/4) "Study" "HIGH" none ⟨10, 0⟩ init_state).2.tasks.getLast?).map
          Task.points = some 22 := by
  refine ⟨by norm_num, ?_⟩
  have h := add_task_points_spec "read" "Study" "HIGH" (7/4) none ⟨10, 0⟩ init_state (by norm_num)
  rw [h, if_pos (show py_lower "HIGH" = "high" by decide),
    show (⌊(7/4 : ℚ) * 10⌋ : Int) = 17 by rw [Int.floor_eq_iff]; norm_num]
  norm_num

theorem find_map_complete (task_id : Nat) :
    ∀ (l : List Task) (t : Task),
      l.find? (fun u => u.id == task_id) = some t →
      (l.map (fun u => if u.id = task_id then { u with completed := true } else u)).find?
          (fun u => u.id == task_id) = some { t with completed := true } := by
  intro l
  induction l with
  | nil => intro t ht; simp at ht
  | cons u rest ih =>
    intro t ht
    by_cases hu : u.id = task_id
    · have hpu : (fun u : Task => u.id == task_id) u = true := by simp [hu]
      rw [@List.find?_cons_of_pos _ (fun u : Task => u.id == task_id) u rest hpu] at ht
      obtain rfl : u = t := Option.some.inj ht
      simp only [List.map_cons]
      rw [if_pos hu]
      refine List.find?_cons_of_pos _ ?_
      simp [hu]
    · have hpu : ¬ (fun u : Task => u.id == task_id) u = true := by simp [hu]
      rw [@List.find?_cons_of_neg _ (fun u : Task => u.id == task_id) u rest hpu] at ht
      simp only [List.map_cons]
      rw [if_neg hu]
      have hpu2 : ¬ (fun u : Task => u.id == task_id) u = true := hpu
      rw [@List.find?_cons_of_neg _ (fun u : Task => u.id == task_id) u
        (rest.map (fun u => if u.id = task_id then { u with completed := true } else u)) hpu2]
      exact ih t ht

/-- C3: completing an unknown id answers "Task not found." and completing an
already-Completed task answers "Task already completed.", in both cases
leaving the store (hence `total_points`) unchanged; completing a pending task
and then completing it again answers "Task already completed." the second
time with the store and total points unchanged between the two calls. -/
theorem complete_task_error_spec :
    (∀ (s : State) (task_id : Nat),
        s.tasks.find? (fun u => u.id == task_id) = none →
        complete_task task_id s = ("Task not found.", s) ∧
          total_points (complete_task task_id s).2 = total_points s) ∧
      (∀ (s : State) (task_id : Nat) (t : Task),
        s.tasks.find? (fun u => u.id == task_id) = some t → t.completed = true →
        complete_task task_id s = ("Task already completed.", s) ∧
          total_points (complete_task task_id s).2 = total_points s) ∧
      (∀ (s : State) (task_id : Nat) (t : Task),
        s.tasks.find? (fun u => u.id == task_id) = some t → t.completed = false →
        (complete_task task_id (complete_task task_id s).2).1 = "Task already completed." ∧
          (complete_task task_id (complete_task task_id s).2).2
            = (complete_task task_id s).2 ∧
          total_points (complete_task task_id (complete_task task_id s).2).2
            = total_points (complete_task task_id s).2) := by
  refine ⟨?_, ?_, ?_⟩
  · intro s task_id hf
    have he : complete_task task_id s = ("Task not found.", s) := by
      simp [complete_task, hf]
    exact ⟨he, by rw [he]⟩
  · intro s task_id t hf ht
    have he : complete_task task_id s = ("Task already completed.", s) := by
      simp [complete_task, hf, ht]
    exact ⟨he, by rw [he]⟩
  · intro s task_id t hf ht
    have hs1 : (complete_task task_id s).2
        = { s with tasks := s.tasks.map (fun u => if u.id = task_id then { u with completed := true } else u) } := by
      simp [complete_task, hf, ht]
    have hf2 := find_map_complete task_id s.tasks t hf
    have h2 : complete_task task_id (complete_task task_id s).2
        = ("Task already completed.", (complete_task task_id s).2) := by
      rw [hs1]
      simp [complete_task, hf2]
    rw [h2]
    exact ⟨rfl, rfl, rfl⟩

/-- Concrete instance of C3: unknown id 7 on an empty store, re-completion on
a store with task 1 completed, and double completion of pending task 1. -/
theorem complete_task_error_spec_witness :
    (complete_task 7 init_state = ("Task not found.", init_state) ∧
        total_points (complete_task 7 init_state).2 = total_points init_state) ∧
      (complete_task 1 c3_done = ("Task already completed.", c3_done) ∧
        total_points (complete_task 1 c3_done).2 = total_points c3_done) ∧
      ((complete_task 1 (complete_task 1 c3_pend).2).1 = "Task already completed." ∧
        (complete_task 1 (complete_task 1 c3_pend).2).2 = (complete_task 1 c3_pend).2 ∧
        total_points (complete_task 1 (complete_task 1 c3_pend).2).2
          = total_points (complete_task 1 c3_pend).2) :=
  ⟨complete_task_error_spec.1 init_state 7 (by decide),
    complete_task_error_spec.2.1 c3_done 1 fix_task (by decide) (by decide),
    complete_task_error_spec.2.2 c3_pend 1 { fix_task with completed := false }
      (by decide) (by decide)⟩

/-- C4: the badge list is built by four independent, non-exclusive threshold
checks — points ≥ 50, points ≥ 100, streak ≥ 3, streak ≥ 7 — so each badge is
present exactly when its threshold is met; points 100 with streak 7 yields
all four badges, and when no threshold is met the list is exactly the single
placeholder entry. -/
theorem achievements_badges_spec (today : Int) (s : State) (total : Int)
    (streak_days : Nat) :
    achievements today s = [("achievements_unlocked",
        JVal.strs (unlocked_badges (total_points s) (streak today s)))] ∧
      ("🥇 Rookie Productivity: Earn 50 points" ∈ unlocked_badges total streak_days
        ↔ 50 ≤ total) ∧
      ("🥈 Pro Productivity: Earn 100 points" ∈ unlocked_badges total streak_days
        ↔ 100 ≤ total) ∧
      ("🔥 3-Day Streak" ∈ unlocked_badges total streak_days ↔ 3 ≤ streak_days) ∧
      ("💎 7-Day Streak" ∈ unlocked_badges total streak_days ↔ 7 ≤ streak_days) ∧
      (total < 50 → streak_days < 3 →
        unlocked_badges total streak_days = ["Keep being productive and hydrated!"]) ∧
      unlocked_badges 100 7 = ["🥇 Rookie Productivity: Earn 50 points",
        "🥈 Pro Productivity: Earn 100 points", "🔥 3-Day Streak", "💎 7-Day Streak"] ∧
      unlocked_badges 0 0 = ["Keep being productive and hydrated!"] := by
  refine ⟨rfl, ?_, ?_, ?_, ?_, ?_, by decide, by decide⟩
  · simp only [unlocked_badges]
    split_ifs <;> simp_all
  · simp only [unlocked_badges]
    split_ifs <;> simp_all
  · simp only [unlocked_badges]
    split_ifs <;> simp_all
  · simp only [unlocked_badges]
    split_ifs <;> simp_all
  · intro h1 h2
    have e1 : ¬ (50 ≤ total) := by omega
    have e2 : ¬ (100 ≤ total) := by omega
    have e3 : ¬ (3 ≤ streak_days) := by omega
    have e4 : ¬ (7 ≤ streak_days) := by omega
    simp [unlocked_badges, e1, e2, e3, e4]

/-- Concrete instance of C4: with points 3 and streak 1 no threshold is met
and only the placeholder is returned; the streak-3 badge is indeed absent. -/
theorem achievements_badges_spec_witness :
    unlocked_badges 3 1 = ["Keep being productive and hydrated!"] ∧
      ("🔥 3-Day Streak" ∈ unlocked_badges 3 1 ↔ 3 ≤ (1 : Nat)) :=
  ⟨(achievements_badges_spec 0 init_state 3 1).2.2.2.2.2.1 (by norm_num) (by norm_num),
    (achievements_badges_spec 0 init_state 3 1).2.2.2.1⟩

/-- C5 counterexample: on a store with total points 5 the dictionary returned
by `achievements` has the single key "achievements_unlocked" and no entry
carrying the current points or the current streak. -/
theorem achievements_interface_counterexample :
    (¬ ((∃ p ∈ achievements 0 c5_state, p.2 = JVal.int (total_points c5_state)) ∧
        (∃ p ∈ achievements 0 c5_state, p.2 = JVal.int ((streak 0 c5_state : Nat) : Int)))) ∧
      (achievements 0 c5_state).map Prod.fst = ["achievements_unlocked"] := by
  decide

/-- C5 (amended): `achievements()` returns a one-entry dictionary whose only
key, "achievements_unlocked", holds the badge list computed from the current
points total and streak; the points and streak values themselves are not
part of the returned value. -/
theorem achievements_result_spec (today : Int) (s : State) :
    achievements today s = [("achievements_unlocked",
        JVal.strs (unlocked_badges (total_points s) (streak today s)))] ∧
      (achievements today s).map Prod.fst = ["achievements_unlocked"] :=
  ⟨rfl, rfl⟩

/-- C6: the analytics calls `streak()`, `total_points()` and `achievements()`
run only `SELECT` statements: the state after each call — both the task store
and the water-log store — is exactly the state before it. -/
theorem analytics_readonly (today : Int) (s : State) :
    (streak_call today s).2 = s ∧ (total_points_call s).2 = s ∧
      (achievements_call today s).2 = s ∧
      (streak_call today s).2.tasks = s.tasks ∧
      (achievements_call today s).2.water_logs = s.water_logs :=
  ⟨rfl, rfl, rfl, rfl, rfl⟩

theorem water_lookup_append_absent (l : List (String × ℚ)) (d : String) (a : ℚ)
    (h : water_lookup l d = none) : water_lookup (l ++ [(d, a)]) d = some a := by
  induction l with
  | nil => simp [water_lookup]
  | cons p rest ih =>
    by_cases hp : p.1 = d
    · simp [water_lookup, hp] at h
    · simp only [List.cons_append, water_lookup, if_neg hp] at h ⊢
      exact ih h

theorem water_lookup_update (l : List (String × ℚ)) (d : String) (a v : ℚ)
    (h : water_lookup l d = some v) :
    water_lookup (l.map (fun p => if p.1 = d then (p.1, p.2 + a) else p)) d
      = some (v + a) := by
  induction l with
  | nil => simp [water_lookup] at h
  | cons p rest ih =>
    by_cases hp : p.1 = d
    · simp only [water_lookup, if_pos hp] at h
      obtain rfl := Option.some.inj h
      simp [water_lookup, hp]
    · simp only [water_lookup, if_neg hp] at h
      simp only [List.map_cons, if_neg hp, water_lookup]
      exact ih h

/-- C7 counterexample: `log_water` accepts a negative amount, so the stored
per-day cumulative value can become negative — the unconditional
non-negativity/monotonicity invariant fails on the code. -/
theorem log_water_invariant_counterexample :
    ¬ (∀ p ∈ (log_water (-1) "2024-01-01" init_state).2.water_logs, 0 ≤ p.2) := by
  decide

/-- C7 (amended): provided every amount passed to `log_water` is
non-negative, the water log is an invariant-preserving map from date to
cumulative liters: each call adds its amount to the day's total (reported
back as `total_water`), all stored values stay non-negative, and the day's
total never decreases. -/
theorem log_water_additive_spec (amount_liters : ℚ) (log_date : String) (s : State)
    (hs : ∀ p ∈ s.water_logs, 0 ≤ p.2) (ha : 0 ≤ amount_liters) :
    water_lookup (log_water amount_liters log_date s).2.water_logs log_date
        = some ((water_lookup s.water_logs log_date).getD 0 + amount_liters) ∧
      (log_water amount_liters log_date s).1.total_water
        = (water_lookup s.water_logs log_date).getD 0 + amount_liters ∧
      (∀ p ∈ (log_water amount_liters log_date s).2.water_logs, 0 ≤ p.2) ∧
      (water_lookup s.water_logs log_date).getD 0
        ≤ (log_water amount_liters log_date s).1.total_water := by
  cases hl : water_lookup s.water_logs log_date with
  | none =>
    have hnew := water_lookup_append_absent s.water_logs log_date amount_liters hl
    have hlogs : (log_water amount_liters log_date s).2.water_logs
        = s.water_logs ++ [(log_date, amount_liters)] := by
      simp [log_water, hl]
    have htot : (log_water amount_liters log_date s).1.total_water = amount_liters := by
      simp [log_water, hl, hnew]
    refine ⟨?_, ?_, ?_, ?_⟩
    · rw [hlogs, hnew]
      simp
    · rw [htot]
      simp
    · rw [hlogs]
      intro p hp
      rcases List.mem_append.mp hp with hp | hp
      · exact hs p hp
      · rcases List.mem_singleton.mp hp with rfl
        exact ha
    · rw [htot]
      simpa using ha
  | some v =>
    have hnew := water_lookup_update s.water_logs log_date amount_liters v hl
    have hlogs : (log_water amount_liters log_date s).2.water_logs
        = s.water_logs.map (fun p => if p.1 = log_date then (p.1, p.2 + amount_liters) else p) := by
      simp [log_water, hl]
    have htot : (log_water amount_liters log_date s).1.total_water = v + amount_liters := by
      simp [log_water, hl, hnew]
    refine ⟨?_, ?_, ?_, ?_⟩
    · rw [hlogs, hnew]
      simp
    · rw [htot]
      simp
    · rw [hlogs]
      intro p hp
      obtain ⟨q, hq, rfl⟩ := List.mem_map.mp hp
      by_cases hqd : q.1 = log_date
      · rw [if_pos hqd]
        have := hs q hq
        dsimp only
        linarith
      · rw [if_neg hqd]
        exact hs q hq
    · rw [htot]
      have := hs
      simp only [hl, Option.getD_some]
      linarith

/-- Concrete instance of C7 (amended): logging 2 liters on a day holding 1
liter gives total 3, keeps entries non-negative and does not decrease. -/
theorem log_water_additive_spec_witness :
    (∀ p ∈ c7_state.water_logs, 0 ≤ p.2) ∧ (0 : ℚ) ≤ 2 ∧
      (water_lookup (log_water 2 "2024-01-01" c7_state).2.water_logs "2024-01-01"
          = some ((water_lookup c7_state.water_logs "2024-01-01").getD 0 + 2) ∧
        (log_water 2 "2024-01-01" c7_state).1.total_water
          = (water_lookup c7_state.water_logs "2024-01-01").getD 0 + 2 ∧
        (∀ p ∈ (log_water 2 "2024-01-01" c7_state).2.water_logs, 0 ≤ p.2) ∧
        (water_lookup c7_state.water_logs "2024-01-01").getD 0
          ≤ (log_water 2 "2024-01-01" c7_state).1.total_water) :=
  ⟨by decide, by norm_num,
    log_water_additive_spec 2 "2024-01-01" c7_state (by decide) (by norm_num)⟩

/-- C8 counterexample: on a state with a water-log row and id sequence 3,
`clear_tasks` leaves the water log non-empty and the id counter at 3 — it
does not clear all collections nor reset the counter to 1. -/
theorem clear_tasks_counterexample :
    ¬ ((clear_tasks c8_state).2.water_logs = [] ∧
        (clear_tasks c8_state).2.next_id = 1) := by
  decide

/-- C8 (amended): `clear_tasks` deletes every task, so the task queries
return their empty-state values, but the water-log store is untouched and
the id counter is not reset: the next added task receives the pre-reset next
id (not 1). -/
theorem clear_tasks_spec (s : State) (title category priority : String)
    (duration_hours : ℚ) (due_date : Option String) (now : Timestamp) :
    (clear_tasks s).2 = { s with tasks := [] } ∧
      list_tasks (clear_tasks s).2 = [] ∧
      pending_tasks (clear_tasks s).2 = [] ∧
      total_points (clear_tasks s).2 = 0 ∧
      (∀ today : Int, streak today (clear_tasks s).2 = 0) ∧
      (clear_tasks s).2.water_logs = s.water_logs ∧
      (add_task title duration_hours category priority due_date now
          (clear_tasks s).2).2.tasks.map Task.id = [s.next_id] := by
  refine ⟨rfl, rfl, rfl, rfl, fun today => rfl, rfl, ?_⟩
  simp [add_task, clear_tasks]

/-- C9: immediately after `add_task`, `list_tasks` shows the new task: it
carries the next id, the given title, status Pending (`completed = false`)
and exactly the score precomputed at creation time. -/
theorem add_task_roundtrip (title category priority : String) (duration_hours : ℚ)
    (due_date : Option String) (now : Timestamp) (s : State) :
    ∃ t ∈ list_tasks (add_task title duration_hours category priority due_date now s).2,
      t.id = s.next_id ∧ t.title = title ∧ t.completed = false ∧
        t.points = task_points duration_hours priority := by
  refine
    ⟨{ id := s.next_id, title := title, category := category, priority := priority,
       duration_hours := duration_hours, created_at := now, due_date := due_date,
       completed := false, points := task_points duration_hours priority },
     ?_, rfl, rfl, rfl, rfl⟩
  simp [list_tasks, add_task]

/-- C10: `pending_tasks` returns exactly the tasks whose completed flag is
false, ordered by the priority string descending and then due date ascending
under lexicographic (BINARY) string comparison — not by creation time: on a
store where a "High" task was created before a "Medium" one, the Medium task
is listed first. -/
theorem pending_tasks_spec (s : State) :
    (∀ t : Task, t ∈ pending_tasks s ↔ (t ∈ s.tasks ∧ t.completed = false)) ∧
      List.Sorted pending_le (pending_tasks s) ∧
      pending_tasks c10_state = [c10_med, c10_high] := by
  refine ⟨?_, ?_, by decide⟩
  · intro t
    simp [pending_tasks, List.mem_filter]
  · haveI : IsTotal Task pending_le := ⟨pending_le_total⟩
    haveI : IsTrans Task pending_le := ⟨pending_le_trans⟩
    exact List.sorted_insertionSort _ _

/-- Concrete instance of C10: the pending Medium task is a member of the
returned list because it is stored and not completed. -/
theorem pending_tasks_spec_witness :
    c10_med ∈ pending_tasks c10_state ∧
      (c10_med ∈ c10_state.tasks ∧ c10_med.completed = false) :=
  ⟨((pending_tasks_spec c10_state).1 c10_med).mpr (by decide), by decide⟩

end Companion
